import Mathlib

/-!
Verification of the ORANGE-CARRIERS bot core (src/bot.py): session login
classification, redirect following, CDR fetching with HTML fallback, row
normalization, deduplication, and the polling worker's backoff policy.
The Python code is shallowly embedded: network I/O is abstracted into
explicit environments (oracles supplying the redirect-resolved responses),
and each pure computation is translated directly from the source.
-/

/-! ## String helpers: Python's `pat in s` substring test -/

/-- Boolean test that the first character list starts the second
(pattern first). Empty pattern matches everywhere, as in Python. -/
def leadsWith : List Char → List Char → Bool
  | [], _ => true
  | _ :: _, [] => false
  | a :: as, b :: bs => a == b && leadsWith as bs

/-- Boolean substring search on character lists (pattern first),
matching Python's `pat in s` for strings. -/
def hasSub (pat : List Char) : List Char → Bool
  | [] => leadsWith pat []
  | b :: bs => leadsWith pat (b :: bs) || hasSub pat bs

/-- Python's `pat in s` for strings. -/
def strContains (s pat : String) : Bool :=
  hasSub pat.data s.data

/-- Python's `s.lower()` (characterwise, as `str.lower` acts on ASCII
markers like `INVALID`). -/
def strLower (s : String) : String :=
  String.mk (s.data.map Char.toLower)

/-- Python's `s.startswith("/")`. -/
def startsSlash (s : String) : Bool :=
  leadsWith "/".data s.data

/-! ## Python values

JSON-derived cell values as seen by `_normalize_cdr_row`: null, string,
integer or boolean, with Python's `str()` rendering and truthiness
(floats are out of scope of the embedded fragment). -/

inductive PyVal where
  | vNone : PyVal
  | vStr : String → PyVal
  | vNum : Int → PyVal
  | vBool : Bool → PyVal
deriving DecidableEq, Repr

/-- Python `str()` on an embedded value. -/
def PyVal.toStr : PyVal → String
  | .vNone => "None"
  | .vStr s => s
  | .vNum n => toString n
  | .vBool b => if b then "True" else "False"

/-- Python truthiness of an embedded value, as used by `or` chains. -/
def PyVal.truthy : PyVal → Bool
  | .vNone => false
  | .vStr s => s ≠ ""
  | .vNum n => n ≠ 0
  | .vBool b => b

/-- One raw CDR row as passed to `_normalize_cdr_row`: a JSON list, a JSON
mapping (association list with distinct keys, `dict.get` = first lookup),
or any other shape. -/
inductive RawRow where
  | list : List PyVal → RawRow
  | dict : List (String × PyVal) → RawRow
  | other : RawRow
deriving DecidableEq

/-- Python `row.get(k)` on the association-list model of a dict. -/
def dictGet (m : List (String × PyVal)) (k : String) : Option PyVal :=
  match m.find? (fun p => p.1 == k) with
  | some p => some p.2
  | none => none

/-! ## Canonical records (`_normalize_cdr_row`, bot.py lines 354-382) -/

/-- Canonical CDR record, the dict built by `_normalize_cdr_row` and
`_parse_cdr_html` (fields id, cli, to, time, duration, type, account). -/
structure CRecord where
  id : String
  cli : String
  toNum : String
  time : String
  duration : String
  typ : String
  account : String
deriving DecidableEq, Repr

/-- Separator used by the f-string `f"{ORANGE_EMAIL}_{cli}_{time_str}"`
that builds the record id. -/
def idSep : String := "_"

/-- Record constructor shared by the list branch of `_normalize_cdr_row`
and by `_parse_cdr_html`: id = account, caller and time joined by `idSep`. -/
def mkCRecord (acct cli toN time dur ty : String) : CRecord :=
  { id := acct ++ idSep ++ cli ++ idSep ++ time
    cli := cli, toNum := toN, time := time
    duration := dur, typ := ty, account := acct }

/-- Python `str(row[i]) if len(row) > i else ""` on the list model. -/
def pyStrAt (xs : List PyVal) (i : Nat) : String :=
  match xs.get? i with
  | some v => v.toStr
  | none => ""

/-- The `or` chain `str(row.get(k1) or row.get(k2) or ... or "")`:
the first truthy value among the candidate keys, rendered with `str()`,
defaulting to the empty string. -/
def resolveField (m : List (String × PyVal)) : List String → String
  | [] => ""
  | k :: ks =>
      match dictGet m k with
      | some v => if v.truthy then v.toStr else resolveField m ks
      | none => resolveField m ks

/-- Candidate keys for the caller field in `_normalize_cdr_row`. -/
def callerKeys : List String := ["cli", "source", "caller", "from"]

/-- Candidate keys for the callee field. -/
def calleeKeys : List String := ["to", "destination"]

/-- Candidate keys for the time field. -/
def timeKeys : List String := ["time", "timestamp", "start_time"]

/-- Candidate keys for the duration field. -/
def durationKeys : List String := ["duration"]

/-- Candidate keys for the type field. -/
def typeKeys : List String := ["type", "status"]

/-- Translation of `_normalize_cdr_row` (bot.py lines 354-382); the
account argument embeds the module global `ORANGE_EMAIL`. -/
def normalizeCdrRow (acct : String) : RawRow → Option CRecord
  | .list xs =>
      some (mkCRecord acct (pyStrAt xs 0) (pyStrAt xs 1) (pyStrAt xs 2)
        (pyStrAt xs 3) (pyStrAt xs 4))
  | .dict m =>
      some (mkCRecord acct (resolveField m callerKeys) (resolveField m calleeKeys)
        (resolveField m timeKeys) (resolveField m durationKeys)
        (resolveField m typeKeys))
  | .other => none

/-! ## HTML table parsing (`_parse_cdr_html`, bot.py lines 325-352)

BeautifulSoup is abstracted at the table boundary: the input is the first
`<table>` element of the page (when one exists), given as the list of its
rows (the tbody rows when a tbody is present), each row being the list of
its `<td>` cell texts. A row whose cells are all `<th>` elements therefore
appears as the empty list, exactly as `tr.find_all("td")` yields `[]`. -/

/-- Translation of `_parse_cdr_html`: `none` = no table found; each row
with a nonempty `<td>` cell list becomes one record via the same field
positions and id f-string as the list branch of `_normalize_cdr_row`. -/
def parseCdrHtml (acct : String) : Option (List (List String)) → List CRecord
  | none => []
  | some rows =>
      rows.filterMap fun cols =>
        if cols.isEmpty then none
        else
          some (mkCRecord acct (cols.getD 0 "") (cols.getD 1 "") (cols.getD 2 "")
            (cols.getD 3 "") (cols.getD 4 ""))

/-! ## JSON parsing (`_parse_cdr_json`, bot.py lines 301-323) -/

/-- Top-level shape of the decoded JSON body, pre-classified as the
`isinstance` checks of `_parse_cdr_json` do: a bare list; a dict whose
`"data"` value is a list; a dict without a `"data"` list but whose
`"aaData"` value is a list; or any other shape. -/
inductive JsonTop where
  | list : List RawRow → JsonTop
  | dictData : List RawRow → JsonTop
  | dictAaData : List RawRow → JsonTop
  | otherShape : JsonTop
deriving DecidableEq

/-- Translation of `_parse_cdr_json`: normalize every row of the selected
array, keeping the rows that normalize successfully. -/
def parseCdrJson (acct : String) : JsonTop → List CRecord
  | .list rows => rows.filterMap (normalizeCdrRow acct)
  | .dictData rows => rows.filterMap (normalizeCdrRow acct)
  | .dictAaData rows => rows.filterMap (normalizeCdrRow acct)
  | .otherShape => []

/-! ## Redirect following (`_follow_redirect`, bot.py lines 114-133) -/

/-- Base URL constant of the bot. -/
def baseUrl : String := "https://www.orangecarrier.com"

/-- One redirect-level HTTP response: status code, optional `location`
header, and the URL the response came from (identifies the response). -/
structure RResp where
  status : Nat
  location : Option String
  url : String
deriving DecidableEq, Repr

/-- Status codes treated as redirects by `_follow_redirect`. -/
def isRedirectCode (s : Nat) : Bool :=
  s == 301 || s == 302 || s == 303 || s == 307 || s == 308

/-- Relative-URL handling: `location = BASE_URL + location` when the
location starts with a slash. -/
def resolveLocation (loc : String) : String :=
  if startsSlash loc then baseUrl ++ loc else loc

/-- Fueled translation of the `for _ in range(max_redirects)` loop of
`_follow_redirect`; `get` is the network oracle (`self.client.get`).
Returns the final response together with the number of hops taken. -/
def followRedirectAux (get : String → RResp) : Nat → RResp → RResp × Nat
  | 0, cur => (cur, 0)
  | n + 1, cur =>
      if isRedirectCode cur.status then
        match cur.location with
        | none => (cur, 0)
        | some loc =>
            let p := followRedirectAux get n (get (resolveLocation loc))
            (p.1, p.2 + 1)
      else (cur, 0)

/-- Maximum hop count of `_follow_redirect`. -/
def maxRedirects : Nat := 10

/-- Translation of `_follow_redirect`: follow at most `maxRedirects`
redirect hops and return the last response fetched. -/
def followRedirect (get : String → RResp) (r : RResp) : RResp :=
  (followRedirectAux get maxRedirects r).1

/-- Number of hops `_follow_redirect` performs on a given response. -/
def redirectHops (get : String → RResp) (r : RResp) : Nat :=
  (followRedirectAux get maxRedirects r).2

/-! ## Login classification (`login`, bot.py lines 135-210) -/

/-- Session state owned by one `OrangeCarrierSession`: the logged-in flag
and the last successful login time (timestamps as abstract naturals). -/
structure SessionSt where
  isLoggedIn : Bool
  lastLoginTime : Option Nat
deriving DecidableEq, Repr

/-- The two failure checks of `login` (bot.py lines 168-178): final URL
still on `/login` without `logout` in the URL, or final body containing
`invalid` or `incorrect` case-insensitively. -/
def loginFailedCheck (finalUrl finalHtml : String) : Bool :=
  (strContains finalUrl "/login" && !strContains finalUrl "logout")
  || (strContains (strLower finalHtml) "invalid"
      || strContains (strLower finalHtml) "incorrect")

/-- Outcome classification of `login`, after redirect resolution: the
transport result is `none` for an exception escaping the request steps,
or `some (finalUrl, finalHtml)`. Returns the updated session state and
the boolean result of `login`. -/
def loginStep (st : SessionSt) (now : Nat) :
    Option (String × String) → SessionSt × Bool
  | none => ({ st with isLoggedIn := false }, false)
  | some (url, html) =>
      if loginFailedCheck url html then
        ({ st with isLoggedIn := false }, false)
      else
        ({ isLoggedIn := true, lastLoginTime := some now }, true)

/-! ## CDR fetching (`fetch_cdrs`, bot.py lines 243-299)

The network is abstracted into an environment carrying the
redirect-resolved responses of the (at most) two structured requests and
of the HTML fallback request, together with the outcomes of the login
calls the cycle may make. The environment is exception-free: a transport
exception ends the cycle early and is handled at the worker level. -/

/-- One redirect-resolved page response as `fetch_cdrs` sees it: final
URL, status code, decoded JSON body (`none` = `json.JSONDecodeError`),
and the first table of the body for the HTML path. -/
structure HResp where
  url : String
  status : Nat
  json : Option JsonTop
  table : Option (List (List String))
deriving DecidableEq

/-- Environment of one `fetch_cdrs` call. -/
structure FetchEnv where
  loggedIn : Bool
  loginOk : Bool
  apiResp : HResp
  reLoginOk : Bool
  apiResp2 : HResp
  htmlResp : HResp

/-- Outcome of one `fetch_cdrs` call: the returned records, whether the
HTML fallback page was requested, and whether its body was parsed. -/
structure FetchOut where
  rows : List CRecord
  htmlRequested : Bool
  htmlParsed : Bool
deriving DecidableEq

/-- Structured response `fetch_cdrs` ends up classifying (bot.py lines
245-268): `none` when the call aborts early (initial login failed, or the
structured response resolved to the login path and the re-login failed);
otherwise the first structured response, or the retried one after a
successful re-login. -/
def selectedApi (env : FetchEnv) : Option HResp :=
  if !env.loggedIn && !env.loginOk then none
  else if strContains env.apiResp.url "/login" then
    if env.reLoginOk then some env.apiResp2 else none
  else some env.apiResp

/-- Rows the structured path yields (bot.py lines 270-279): parse the
JSON body only when the status is 200 and the resolved URL is not the
login path; a decode error or any other case yields zero rows. -/
def structRows (acct : String) (r : HResp) : List CRecord :=
  if r.status == 200 && !strContains r.url "/login" then
    match r.json with
    | some j => parseCdrJson acct j
    | none => []
  else []

/-- Translation of `fetch_cdrs`: structured path first, returning its
rows when nonempty; otherwise the HTML fallback page is requested, and
its body is parsed only when its resolved URL is not the login path. -/
def fetchCdrs (acct : String) (env : FetchEnv) : FetchOut :=
  match selectedApi env with
  | none => ⟨[], false, false⟩
  | some r =>
      let jrows := structRows acct r
      if jrows.isEmpty then
        if strContains env.htmlResp.url "/login" then ⟨[], true, false⟩
        else ⟨parseCdrHtml acct env.htmlResp.table, true, true⟩
      else ⟨jrows, false, false⟩

/-! ## Deduplication gate (bot.py line 66 and lines 912-915) -/

/-- The emit gate of `cdr_worker` run over one cycle's record ids:
`if cdr["id"] not in seen_ids: seen_ids.add(cdr["id"]); send(...)`.
Returns the emitted ids in order and the grown seen set. -/
def emitGate (seen : Finset String) : List String → List String × Finset String
  | [] => ([], seen)
  | a :: rest =>
      if a ∈ seen then emitGate seen rest
      else
        let p := emitGate (insert a seen) rest
        (a :: p.1, p.2)

/-- Iterate the emit gate over `n` fetch cycles that all return the same
list of ids, collecting each cycle's emissions. -/
def emitCycles (seen : Finset String) (ids : List String) :
    Nat → List (List String) × Finset String
  | 0 => ([], seen)
  | n + 1 =>
      let p := emitGate seen ids
      let q := emitCycles p.2 ids n
      (p.1 :: q.1, q.2)

/-! ## Poll worker (`cdr_worker`, bot.py lines 878-921) -/

/-- Login-failure threshold `max_failures` of `cdr_worker`. -/
def maxFailures : Nat := 5

/-- Initial and reset value of `backoff_time`. -/
def backoffFloor : Nat := 60

/-- Cap applied by `min(backoff_time * 2, 3600)`. -/
def backoffCeiling : Nat := 3600

/-- State of one `cdr_worker` loop: the session's logged-in flag, the
local `login_failures` and `backoff_time` variables, and the global
`seen_ids` set. -/
structure WState where
  loggedIn : Bool
  failures : Nat
  backoff : Nat
  seen : Finset String

/-- Worker state at task start: fresh session, `login_failures = 0`,
`backoff_time = 60`, empty seen set. -/
def initWState : WState :=
  { loggedIn := false, failures := 0, backoff := 60, seen := ∅ }

/-- What one iteration of the `while True` loop observed, with network
effects as an oracle. `loginFail`: login was needed and returned false.
`run ids lAfter`: any needed login succeeded, fetch returned records with
the listed ids, and the session flag was `lAfter` after fetch (fetch can
clear it on an internal re-login failure). `raise didReset processed`:
an exception escaped the try body after the emit loop had processed the
listed ids; `didReset` records whether a needed login had already
succeeded (resetting the failure counters) before the exception. -/
inductive CycleEv where
  | loginFail : CycleEv
  | run : List String → Bool → CycleEv
  | raise : Bool → List String → CycleEv

/-- One iteration of `cdr_worker`'s loop. Returns the next state, the
ids emitted this cycle, and the extra backoff sleep performed (beyond the
fixed poll-interval sleep every iteration ends with), if any. -/
def cycleStep (st : WState) : CycleEv → WState × List String × Option Nat
  | .loginFail =>
      let f := st.failures + 1
      if maxFailures ≤ f then
        ({ st with
            loggedIn := false
            failures := f
            backoff := min (st.backoff * 2) backoffCeiling }, [], some st.backoff)
      else
        ({ st with loggedIn := false, failures := f }, [], none)
  | .run ids lAfter =>
      let st1 := if st.loggedIn then st
        else { st with failures := 0, backoff := backoffFloor }
      let p := emitGate st1.seen ids
      ({ st1 with loggedIn := lAfter, seen := p.2 }, p.1, none)
  | .raise didReset processed =>
      let st1 := if didReset then
          { st with failures := 0, backoff := backoffFloor }
        else st
      let p := emitGate st1.seen processed
      ({ st1 with loggedIn := false, seen := p.2 }, p.1, none)

/-- Worker state after `k` consecutive failed login cycles from a given
state. -/
def iterFail (st : WState) : Nat → WState
  | 0 => st
  | k + 1 => (cycleStep (iterFail st k) .loginFail).1

/-- Backoff sleep performed during the `k`-th consecutive failed login
cycle (counting from 1) starting from the initial worker state. -/
def failWait (k : Nat) : Option Nat :=
  (cycleStep (iterFail initWState (k - 1)) .loginFail).2.2

/-! ## Supporting lemmas -/

/-- Every record produced by `_normalize_cdr_row` has the id built from
the account, its caller field and its time field, joined by `idSep`. -/
theorem normalize_id_shape (acct : String) (r : RawRow) (rec : CRecord)
    (h : normalizeCdrRow acct r = some rec) :
    rec.id = acct ++ idSep ++ rec.cli ++ idSep ++ rec.time := by
  cases r with
  | list xs =>
      simp only [normalizeCdrRow, Option.some.injEq] at h
      subst h
      rfl
  | dict m =>
      simp only [normalizeCdrRow, Option.some.injEq] at h
      subst h
      rfl
  | other => simp [normalizeCdrRow] at h

/-- First truthy value found among the candidate keys that are present in
the mapping, in candidate order. -/
def firstTruthy (m : List (String × PyVal)) (keys : List String) : Option PyVal :=
  (keys.filterMap (dictGet m)).find? PyVal.truthy

/-- String a canonical field gets from the first truthy candidate value,
defaulting to the empty string. -/
def fieldFromTruthy (m : List (String × PyVal)) (keys : List String) : String :=
  match firstTruthy m keys with
  | some v => v.toStr
  | none => ""

/-- The `or`-chain translation `resolveField` computes exactly the first
truthy present candidate value (rendered with `str()`), or `""`. -/
theorem resolveField_eq_fieldFromTruthy (m : List (String × PyVal)) :
    ∀ keys : List String, resolveField m keys = fieldFromTruthy m keys := by
  intro keys
  induction keys with
  | nil => rfl
  | cons k ks ih =>
      simp only [resolveField, fieldFromTruthy, firstTruthy, List.filterMap_cons]
      cases hk : dictGet m k with
      | none => simpa [fieldFromTruthy, firstTruthy] using ih
      | some v =>
          simp only [List.find?]
          cases hv : v.truthy with
          | true => simp [hv]
          | false => simpa [hv, fieldFromTruthy, firstTruthy] using ih

/-! ## Claim C1: identity stability across row shapes -/

/-- C1: two raw records for the same account whose resolved caller field
and resolved time field agree (whatever their shape, list or map)
normalize to records with byte-identical ids, since the id is exactly the
account, caller field and time field joined by the fixed separator. -/
theorem c1_normalize_id_agrees (acct : String) (r₁ r₂ : RawRow)
    (rec₁ rec₂ : CRecord)
    (h₁ : normalizeCdrRow acct r₁ = some rec₁)
    (h₂ : normalizeCdrRow acct r₂ = some rec₂)
    (hc : rec₁.cli = rec₂.cli) (ht : rec₁.time = rec₂.time) :
    rec₁.id = rec₂.id := by
  rw [normalize_id_shape acct r₁ rec₁ h₁, normalize_id_shape acct r₂ rec₂ h₂,
    hc, ht]

/-- List-shaped raw row used to witness C1. -/
def c1rowList : RawRow :=
  .list [.vStr "+1555", .vStr "+1999", .vStr "2024-01-01T10:00:00"]

/-- Map-shaped raw row with the same caller and time, via candidate keys
`source` and `timestamp`. -/
def c1rowDict : RawRow :=
  .dict [("source", .vStr "+1555"), ("timestamp", .vStr "2024-01-01T10:00:00")]

/-- Record the list-shaped witness row normalizes to. -/
def c1recList : CRecord :=
  mkCRecord "a@x.com" "+1555" "+1999" "2024-01-01T10:00:00" "" ""

/-- Record the map-shaped witness row normalizes to. -/
def c1recDict : CRecord :=
  mkCRecord "a@x.com" "+1555" "" "2024-01-01T10:00:00" "" ""

/-- Witness for C1 at a concrete list-shaped/map-shaped pair. -/
theorem c1_witness : c1recList.id = c1recDict.id :=
  c1_normalize_id_agrees "a@x.com" c1rowList c1rowDict c1recList c1recDict
    (by decide) (by decide) (by decide) (by decide)

/-! ## Claim C7: map-shaped field resolution -/

/-- Resolution of the claim's wording, for comparison: the first
candidate key that is present with a non-null value, taken even when that
value is falsy (e.g. the empty string). -/
def specFirstPresentNonNull (m : List (String × PyVal)) :
    List String → Option PyVal
  | [] => none
  | k :: ks =>
      match dictGet m k with
      | some v => if v = .vNone then specFirstPresentNonNull m ks else some v
      | none => specFirstPresentNonNull m ks

/-- Counterexample to C7 as stated: on the map
`{"cli": "", "source": "X"}` the first present non-null caller candidate
is the empty string under key `cli`, but the code's `or` chain skips the
falsy empty string and resolves the caller to `"X"`. -/
theorem c7_counterexample :
    (normalizeCdrRow "a" (.dict [("cli", .vStr ""), ("source", .vStr "X")])).map
        CRecord.cli = some "X"
    ∧ (specFirstPresentNonNull [("cli", .vStr ""), ("source", .vStr "X")]
        callerKeys).map PyVal.toStr = some ""
    ∧ ("X" : String) ≠ "" := by
  refine ⟨by decide, by decide, by decide⟩

/-- C7 as amended: each canonical field of a map-shaped row is resolved
to the first present truthy (non-null, non-empty, non-zero) candidate
value rendered with `str()`, defaulting to the empty string when every
candidate is absent or falsy; a row that is neither list- nor map-shaped
yields no record. -/
theorem c7_field_resolution (acct : String) (m : List (String × PyVal))
    (rec : CRecord) (h : normalizeCdrRow acct (.dict m) = some rec) :
    rec.cli = fieldFromTruthy m callerKeys
    ∧ rec.toNum = fieldFromTruthy m calleeKeys
    ∧ rec.time = fieldFromTruthy m timeKeys
    ∧ rec.duration = fieldFromTruthy m durationKeys
    ∧ rec.typ = fieldFromTruthy m typeKeys
    ∧ normalizeCdrRow acct .other = none := by
  simp only [normalizeCdrRow, Option.some.injEq] at h
  subst h
  refine ⟨?_, ?_, ?_, ?_, ?_, rfl⟩ <;>
    simp [mkCRecord, resolveField_eq_fieldFromTruthy]

/-- Map-shaped row used to witness C7. -/
def c7dict : List (String × PyVal) :=
  [("caller", .vStr "+1666"), ("status", .vStr "busy")]

/-- Witness for C7 at a concrete map-shaped row. -/
theorem c7_witness :
    (mkCRecord "a" "+1666" "" "" "" "busy").cli
      = fieldFromTruthy c7dict callerKeys :=
  (c7_field_resolution "a" c7dict (mkCRecord "a" "+1666" "" "" "" "busy")
    (by decide)).1

/-! ## Claim C8: the normalization scenario -/

/-- Map-shaped raw row of the C8 scenario. -/
def c8row : RawRow :=
  .dict [("cli", .vStr "+1555"), ("to", .vStr "+1777"),
    ("time", .vStr "2024-01-01T10:00:00"), ("duration", .vStr "30"),
    ("type", .vStr "answered")]

/-- Counterexample to C8 as stated: the code's id separator is `"_"`, so
the scenario row normalizes to the id
`a@x.com_+1555_2024-01-01T10:00:00`, not to the claimed
`a@x.com|+1555|2024-01-01T10:00:00` built with separator `|`. -/
theorem c8_counterexample :
    (normalizeCdrRow "a@x.com" c8row).map CRecord.id
      = some "a@x.com_+1555_2024-01-01T10:00:00"
    ∧ ("a@x.com_+1555_2024-01-01T10:00:00" : String)
      ≠ "a@x.com|+1555|2024-01-01T10:00:00" := by
  refine ⟨by decide, by decide⟩

/-- C8 as amended: with the code's fixed separator `idSep = "_"`, the
scenario row for account `a@x.com` normalizes to the record whose id is
the account, caller field and time field joined by that separator, with
caller number `+1555` and callee number `+1777`. -/
theorem c8_scenario :
    normalizeCdrRow "a@x.com" c8row
      = some { id := "a@x.com" ++ idSep ++ "+1555" ++ idSep
                 ++ "2024-01-01T10:00:00"
               cli := "+1555", toNum := "+1777"
               time := "2024-01-01T10:00:00", duration := "30"
               typ := "answered", account := "a@x.com" } := by
  decide

/-! ## Claim C6: HTML fallback parsing -/

/-- Positional record built from one table row's `<td>` cell texts. -/
def rowRecord (acct : String) (cols : List String) : CRecord :=
  mkCRecord acct (cols.getD 0 "") (cols.getD 1 "") (cols.getD 2 "")
    (cols.getD 3 "") (cols.getD 4 "")

/-- Python `str()` is the identity on the strings a table cell yields. -/
theorem pyStrAt_map_vStr (cols : List String) (i : Nat) :
    pyStrAt (cols.map PyVal.vStr) i = cols.getD i "" := by
  unfold pyStrAt
  rw [List.get?_eq_getElem?, List.getElem?_map, List.getD_eq_getElem?_getD]
  cases h : cols[i]? <;> simp [h, PyVal.toStr]

/-- Counterexample to C6 as stated: a first row made of `<td>` cells is
not skipped. On the table whose rows are `["CLI","To","Time"]` and
`["+1555","+1777","t1"]`, the code produces two records, the first built
from the header-like row, while the claim predicts the header row is
skipped and only one record results. -/
theorem c6_counterexample :
    (parseCdrHtml "a" (some [["CLI", "To", "Time"],
        ["+1555", "+1777", "t1"]])).map CRecord.cli = ["CLI", "+1555"]
    ∧ (["CLI", "+1555"] : List String) ≠ ["+1555"] := by
  refine ⟨by decide, by decide⟩

/-- C6 as amended: the parser reads the first table element (its tbody
rows when a tbody is present); every row with at least one `<td>` cell
becomes one record from its cell texts, exactly the record the
normalizer yields on the corresponding list-shaped raw row; rows with no
`<td>` cells (such as a `<th>`-only header row) produce no record, and a
`<td>`-cell header row is not skipped; no table yields no records. -/
theorem c6_html_rows (acct : String) (rows : List (List String)) :
    parseCdrHtml acct (some rows)
      = (rows.filter fun c => !c.isEmpty).map (rowRecord acct)
    ∧ parseCdrHtml acct none = []
    ∧ ∀ cols : List String,
        normalizeCdrRow acct (.list (cols.map PyVal.vStr))
          = some (rowRecord acct cols) := by
  refine ⟨?_, rfl, ?_⟩
  · induction rows with
    | nil => rfl
    | cons c cs ih =>
        by_cases hc : c.isEmpty <;>
          simp_all [parseCdrHtml, List.filterMap_cons, List.filter_cons,
            rowRecord]
  · intro cols
    simp [normalizeCdrRow, rowRecord, pyStrAt_map_vStr]

/-! ## Claim C9: bounded redirect resolution -/

/-- Hop count of the fueled loop never exceeds its fuel. -/
theorem followRedirectAux_hops_le (get : String → RResp) :
    ∀ n r, (followRedirectAux get n r).2 ≤ n := by
  intro n
  induction n with
  | zero => intro r; simp [followRedirectAux]
  | succ n ih =>
      intro r
      by_cases h : isRedirectCode r.status
      · cases hl : r.location with
        | none => simp [followRedirectAux, h, hl]
        | some loc =>
            simpa [followRedirectAux, h, hl] using
              Nat.succ_le_succ (ih (get (resolveLocation loc)))
      · simp [followRedirectAux, h]

/-- Successor URL in the crafted 15-cycle of redirects u1 → u2 → ... →
u15 → u1. -/
def chainNext (u : String) : String :=
  if u == "u1" then "u2" else if u == "u2" then "u3"
  else if u == "u3" then "u4" else if u == "u4" then "u5"
  else if u == "u5" then "u6" else if u == "u6" then "u7"
  else if u == "u7" then "u8" else if u == "u8" then "u9"
  else if u == "u9" then "u10" else if u == "u10" then "u11"
  else if u == "u11" then "u12" else if u == "u12" then "u13"
  else if u == "u13" then "u14" else if u == "u14" then "u15"
  else "u1"

/-- Network oracle of the crafted chain: every URL answers with a 302
redirect pointing at the next URL of the cycle. -/
def chainGet (u : String) : RResp :=
  { status := 302, location := some (chainNext u), url := u }

set_option maxRecDepth 8192 in
/-- C9: redirect resolution performs at most 10 hops for every oracle
and every starting response; on the crafted 15-cycle of redirects it
stops after exactly 10 hops and returns the last fetched response; a
non-redirect status or a missing location header returns the response
unchanged. -/
theorem c9_redirect_bound :
    (∀ get : String → RResp, ∀ r : RResp, redirectHops get r ≤ maxRedirects)
    ∧ (∀ get : String → RResp, ∀ r : RResp,
        isRedirectCode r.status = false → followRedirect get r = r)
    ∧ (∀ get : String → RResp, ∀ r : RResp,
        r.location = none → followRedirect get r = r)
    ∧ redirectHops chainGet (chainGet "u15") = 10
    ∧ followRedirect chainGet (chainGet "u15") = chainGet "u10" := by
  have h10 : maxRedirects = 9 + 1 := rfl
  refine ⟨fun get r => followRedirectAux_hops_le get maxRedirects r,
    ?_, ?_, by decide, by decide⟩
  · intro get r h
    simp [followRedirect, h10, followRedirectAux, h]
  · intro get r h
    by_cases hr : isRedirectCode r.status <;>
      simp [followRedirect, h10, followRedirectAux, hr, h]

/-- Witness for C9 at a concrete non-redirect response. -/
theorem c9_witness :
    followRedirect chainGet { status := 200, location := some "u1", url := "ux" }
      = { status := 200, location := some "u1", url := "ux" } :=
  c9_redirect_bound.2.1 chainGet
    { status := 200, location := some "u1", url := "ux" } (by decide)

/-! ## Claim C3: login outcome classification -/

/-- C3: `login` classifies from the final redirect-resolved URL and body.
A transport exception yields failure with the logged-in flag cleared; a
final URL still on the login path without a logout indicator, or a body
containing case-insensitive `invalid` or `incorrect`, yields failure with
the flag cleared; in every other case — including absence of all
markers — it yields success, setting the flag and the last-login time. -/
theorem c3_login_classification (st : SessionSt) (now : Nat)
    (url html : String) :
    loginStep st now none = ({ st with isLoggedIn := false }, false)
    ∧ ((strContains url "/login" = true ∧ strContains url "logout" = false)
        ∨ strContains (strLower html) "invalid" = true
        ∨ strContains (strLower html) "incorrect" = true →
        loginStep st now (some (url, html))
          = ({ st with isLoggedIn := false }, false))
    ∧ ((strContains url "/login" = false ∨ strContains url "logout" = true) →
        strContains (strLower html) "invalid" = false →
        strContains (strLower html) "incorrect" = false →
        loginStep st now (some (url, html))
          = ({ isLoggedIn := true, lastLoginTime := some now }, true)) := by
  refine ⟨rfl, ?_, ?_⟩
  · intro h
    have hc : loginFailedCheck url html = true := by
      rcases h with ⟨h1, h2⟩ | h | h
      · simp [loginFailedCheck, h1, h2]
      · simp [loginFailedCheck, h]
      · simp [loginFailedCheck, h]
    simp [loginStep, hc]
  · intro h h2 h3
    have hc : loginFailedCheck url html = false := by
      rcases h with h | h <;> simp [loginFailedCheck, h, h2, h3]
    simp [loginStep, hc]

/-- Witness for C3: a marker-free dashboard outcome is a success. -/
theorem c3_witness :
    loginStep { isLoggedIn := false, lastLoginTime := none } 5
        (some ("https://www.orangecarrier.com/dashboard", "Welcome"))
      = ({ isLoggedIn := true, lastLoginTime := some 5 }, true) :=
  (c3_login_classification { isLoggedIn := false, lastLoginTime := none } 5
      "https://www.orangecarrier.com/dashboard" "Welcome").2.2
    (Or.inl (by decide)) (by decide) (by decide)

/-! ## Claim C2: exactly-once deduplication -/

/-- Seen set after one cycle of the emit gate: the old set united with
this cycle's ids. -/
theorem emitGate_seen (ids : List String) :
    ∀ seen : Finset String, (emitGate seen ids).2 = seen ∪ ids.toFinset := by
  induction ids with
  | nil => intro seen; simp [emitGate]
  | cons a rest ih =>
      intro seen
      by_cases h : a ∈ seen <;>
        simp only [emitGate, h, if_true, if_false, ite_true, ite_false, ih] <;>
        ext x <;> simp [List.toFinset_cons] <;>
        first
          | tauto
          | (rintro rfl; tauto)

/-- Ids the emit gate passes in one cycle: each id exactly once when it
occurs in the cycle and was not seen before, otherwise not at all. -/
theorem emitGate_count (ids : List String) :
    ∀ (seen : Finset String) (x : String),
      ((emitGate seen ids).1).count x
        = if x ∈ ids ∧ x ∉ seen then 1 else 0 := by
  induction ids with
  | nil => intro seen x; simp [emitGate]
  | cons a rest ih =>
      intro seen x
      by_cases h : a ∈ seen
      · rw [emitGate, if_pos h, ih]
        by_cases hx : x = a
        · subst hx; simp [h]
        · simp [hx]
      · rw [emitGate, if_neg h]
        simp only [List.count_cons]
        rw [ih]
        by_cases hx : x = a
        · subst hx; simp [h, Finset.mem_insert]
        · simp [hx, Ne.symm hx, Finset.mem_insert]

/-- A cycle whose ids were all seen before emits nothing. -/
theorem emitGate_emits_nil (ids : List String) :
    ∀ seen : Finset String, ids.toFinset ⊆ seen → (emitGate seen ids).1 = [] := by
  induction ids with
  | nil => intro seen _; rfl
  | cons a rest ih =>
      intro seen hs
      have ha : a ∈ seen := hs (by simp)
      rw [emitGate, if_pos ha]
      exact ih seen fun x hx =>
        hs (by simp only [List.toFinset_cons]; exact Finset.mem_insert_of_mem hx)

/-- The seen set only ever grows across the emit gate. -/
theorem emitGate_mono (seen : Finset String) (ids : List String) :
    seen ⊆ (emitGate seen ids).2 := by
  rw [emitGate_seen]
  exact Finset.subset_union_left

/-- Once the seen set covers the cycle's ids, every further cycle emits
nothing and leaves the seen set unchanged. -/
theorem emitCycles_stable (ids : List String) (seen : Finset String)
    (hs : ids.toFinset ⊆ seen) :
    ∀ n, emitCycles seen ids n = (List.replicate n [], seen) := by
  intro n
  induction n with
  | zero => rfl
  | succ n ih =>
      have h1 : (emitGate seen ids).1 = [] := emitGate_emits_nil ids seen hs
      have h2 : (emitGate seen ids).2 = seen := by
        rw [emitGate_seen]; exact Finset.union_eq_left.mpr hs
      rw [emitCycles]
      simp [h1, h2, ih, List.replicate_succ]

/-- Flattening cycles that each emitted nothing gives nothing. -/
theorem flatten_replicate_nil (m : Nat) :
    (List.replicate m ([] : List String)).flatten = [] := by
  induction m with
  | zero => rfl
  | succ m ih => simp [List.replicate_succ, ih]

/-- Every position of an all-empty emission log reads as empty. -/
theorem replicate_nil_getD (m j : Nat) :
    (List.replicate m ([] : List String)).getD j [] = [] := by
  induction m generalizing j with
  | zero => simp [List.getD]
  | succ m ih => cases j <;> simp [List.replicate_succ, List.getD, ih]

/-- Starting from an empty seen set, every run of at least one cycle
emits everything in the first cycle and nothing afterwards. -/
theorem emitCycles_structure (ids : List String) (m : Nat) :
    emitCycles ∅ ids (m + 1)
      = ((emitGate ∅ ids).1 :: List.replicate m [], (emitGate ∅ ids).2) := by
  have hseen : (emitGate ∅ ids).2 = ids.toFinset := by
    rw [emitGate_seen]; simp
  rw [emitCycles]
  rw [hseen, emitCycles_stable ids ids.toFinset (by simp) m]

/-- C2: over any number `n ≥ 1` of poll cycles that all return the same
list of record ids, starting from the empty seen set, the emit gate
passes each distinct id exactly once across the whole run (the total
emission log counts every id of the cycle once and everything else zero
times), every cycle after the first emits nothing, and the seen set only
ever grows. -/
theorem c2_dedup_exactly_once (ids : List String) (n : Nat) (hn : 1 ≤ n) :
    (∀ x : String, ((emitCycles ∅ ids n).1.flatten).count x
        = if x ∈ ids then 1 else 0)
    ∧ (∀ i, 1 ≤ i → (emitCycles ∅ ids n).1.getD i [] = [])
    ∧ (∀ (seen : Finset String) (more : List String),
        seen ⊆ (emitGate seen more).2) := by
  obtain ⟨m, rfl⟩ : ∃ m, n = m + 1 := ⟨n - 1, by omega⟩
  rw [emitCycles_structure]
  refine ⟨?_, ?_, fun seen more => emitGate_mono seen more⟩
  · intro x
    simp only [List.flatten_cons, flatten_replicate_nil, List.append_nil]
    rw [emitGate_count]
    simp
  · intro i hi
    obtain ⟨j, rfl⟩ : ∃ j, i = j + 1 := ⟨i - 1, by omega⟩
    simp [List.getD, replicate_nil_getD]

/-- Witness for C2: in three cycles over the ids `a`, `b`, `a`, the id
`a` is emitted exactly once over the whole run. -/
theorem c2_witness :
    ((emitCycles ∅ ["a", "b", "a"] 3).1.flatten).count "a" = 1 :=
  ((c2_dedup_exactly_once ["a", "b", "a"] 3 (by decide)).1 "a").trans (by decide)

/-! ## Claim C5: structured-first fetching and the HTML fallback -/

/-- Environment falsifying C5 as stated: both structured attempts resolve
to the login path (the retry after a successful re-login is redirected
back to login), and the HTML fallback response also resolves to the
login path. -/
def c5env : FetchEnv :=
  { loggedIn := true
    loginOk := false
    apiResp := { url := baseUrl ++ "/login", status := 200
                 json := none, table := none }
    reLoginOk := true
    apiResp2 := { url := baseUrl ++ "/login", status := 200
                  json := none, table := none }
    htmlResp := { url := baseUrl ++ "/login", status := 200
                  json := none, table := none } }

/-- Counterexample to C5 as stated: the HTML fallback page is requested
in a cycle in which every resolved URL — the structured response the code
classifies and the fallback response itself — is the login path; the code
only gates the fallback's parsing, never its request, on the URL. -/
theorem c5_counterexample :
    (fetchCdrs "a" c5env).htmlRequested = true
    ∧ strContains ((selectedApi c5env).getD c5env.apiResp).url "/login" = true
    ∧ strContains c5env.htmlResp.url "/login" = true := by
  refine ⟨by decide, by decide, by decide⟩

/-- C5 as amended: when the structured path yields a nonempty parsed
list, `fetch_cdrs` returns exactly those records and the HTML fallback is
never requested in that cycle; the fallback is requested exactly when the
structured path ran (no early abort) and produced zero rows; and the
fallback body is parsed only when the fallback response's resolved URL is
not the login path. -/
theorem c5_fallback_ordering (acct : String) (env : FetchEnv) :
    (∀ r : HResp, selectedApi env = some r → structRows acct r ≠ [] →
        fetchCdrs acct env = ⟨structRows acct r, false, false⟩)
    ∧ ((fetchCdrs acct env).htmlRequested = true ↔
        ∃ r : HResp, selectedApi env = some r ∧ structRows acct r = [])
    ∧ ((fetchCdrs acct env).htmlParsed = true →
        strContains env.htmlResp.url "/login" = false) := by
  refine ⟨?_, ?_, ?_⟩
  · intro r hr hne
    simp [fetchCdrs, hr, List.isEmpty_iff, hne]
  · cases hr : selectedApi env with
    | none => simp [fetchCdrs, hr]
    | some r =>
        by_cases he : structRows acct r = []
        · by_cases hl : strContains env.htmlResp.url "/login" <;>
            simp [fetchCdrs, hr, he, hl, List.isEmpty_iff]
        · simp [fetchCdrs, hr, he, List.isEmpty_iff]
  · cases hr : selectedApi env with
    | none => simp [fetchCdrs, hr]
    | some r =>
        by_cases he : structRows acct r = []
        · by_cases hl : strContains env.htmlResp.url "/login" <;>
            simp [fetchCdrs, hr, he, hl, List.isEmpty_iff]
        · simp [fetchCdrs, hr, he, List.isEmpty_iff]

/-- Environment with an authenticated session and a nonempty structured
response, used to witness C5. -/
def c5okEnv : FetchEnv :=
  { loggedIn := true
    loginOk := true
    apiResp := { url := baseUrl ++ "/CDR/mycdrs", status := 200
                 json := some (.list [.dict [("cli", .vStr "+1")]])
                 table := none }
    reLoginOk := false
    apiResp2 := { url := baseUrl, status := 200, json := none, table := none }
    htmlResp := { url := baseUrl, status := 200, json := none, table := none } }

/-- Witness for C5: a nonempty structured response is returned as-is and
the HTML fallback is not requested. -/
theorem c5_witness :
    fetchCdrs "a" c5okEnv = ⟨structRows "a" c5okEnv.apiResp, false, false⟩ :=
  (c5_fallback_ordering "a" c5okEnv).1 c5okEnv.apiResp (by decide) (by decide)

/-! ## Claim C4: backoff growth and reset -/

/-- Closed form of the worker's local state along a run of consecutive
failed login cycles from the initial state: `login_failures` counts the
failures and `backoff_time` is 60 until the 4th failure, then
`min(60·2^(k-4), 3600)` after the `k`-th. -/
theorem iterFail_state (k : Nat) :
    (iterFail initWState k).failures = k
    ∧ (iterFail initWState k).backoff
        = (if k ≤ 4 then 60 else min (60 * 2 ^ (k - 4)) 3600) := by
  induction k with
  | zero => exact ⟨rfl, rfl⟩
  | succ k ih =>
      obtain ⟨hf, hb⟩ := ih
      have hrw : iterFail initWState (k + 1)
          = (cycleStep (iterFail initWState k) .loginFail).1 := rfl
      have hfail : (iterFail initWState (k + 1)).failures = k + 1 := by
        rw [hrw]
        simp only [cycleStep, hf]
        split <;> rfl
      refine ⟨hfail, ?_⟩
      by_cases h : maxFailures ≤ (iterFail initWState k).failures + 1
      · have h5 : 5 ≤ k + 1 := by
          simpa [maxFailures, hf] using h
        rw [hrw]
        simp only [cycleStep, if_pos h]
        rw [hb]
        have h4 : ¬(k + 1 ≤ 4) := by omega
        rw [if_neg h4]
        by_cases hk : k ≤ 4
        · have hk4 : k = 4 := by omega
          subst hk4
          norm_num [backoffCeiling]
        · rw [if_neg hk]
          have h2 : 60 * 2 ^ (k + 1 - 4) = 60 * 2 ^ (k - 4) * 2 := by
            rw [show k + 1 - 4 = (k - 4) + 1 by omega, pow_succ]
            ring
          rw [h2]
          simp only [backoffCeiling]
          omega
      · have h5 : ¬(5 ≤ k + 1) := by
          simpa [maxFailures, hf] using h
        rw [hrw]
        simp only [cycleStep, if_neg h]
        rw [hb]
        have hk : k ≤ 4 := by omega
        have hk1 : k + 1 ≤ 4 := by omega
        simp [hk, hk1]

/-- Counterexample to C4 as stated: the 6th consecutive login failure
backs off for 120 time-units (the 5th already waited 60), not the 60 the
claim's schedule predicts for the 6th failure. -/
theorem c4_counterexample :
    failWait 6 = some 120 ∧ (120 : Nat) ≠ 60 := by
  refine ⟨by decide, by decide⟩

/-- C4 as amended: no backoff sleep happens before the failure count
reaches the threshold; from the `k`-th consecutive failure on with
`k ≥ 5` the backoff sleep is `floor · 2^(k - threshold)` capped at the
ceiling (the 5th failure waits 60, the 6th 120, and so on, capping at
3600); and the next cycle whose needed login succeeds resets the failure
count to 0 and the backoff duration to the floor. -/
theorem c4_backoff_growth :
    (∀ k, 1 ≤ k → k < maxFailures → failWait k = none)
    ∧ (∀ k, maxFailures ≤ k →
        failWait k
          = some (min (backoffFloor * 2 ^ (k - maxFailures)) backoffCeiling))
    ∧ (∀ (st : WState) (ids : List String) (lAfter : Bool),
        st.loggedIn = false →
        (cycleStep st (.run ids lAfter)).1.failures = 0
        ∧ (cycleStep st (.run ids lAfter)).1.backoff = backoffFloor) := by
  refine ⟨?_, ?_, ?_⟩
  · intro k h1 h5
    unfold failWait
    obtain ⟨hf, _⟩ := iterFail_state (k - 1)
    have hn : ¬ maxFailures ≤ (iterFail initWState (k - 1)).failures + 1 := by
      rw [hf]
      simp only [maxFailures] at h5 ⊢
      omega
    simp [cycleStep, hn]
  · intro k hk
    simp only [maxFailures] at hk
    unfold failWait
    obtain ⟨hf, hb⟩ := iterFail_state (k - 1)
    have hy : maxFailures ≤ (iterFail initWState (k - 1)).failures + 1 := by
      rw [hf]
      simp only [maxFailures]
      omega
    simp only [cycleStep, if_pos hy]
    rw [hb]
    simp only [maxFailures, backoffFloor, backoffCeiling]
    by_cases h4 : k - 1 ≤ 4
    · have hk5 : k = 5 := by omega
      subst hk5
      norm_num
    · rw [if_neg h4]
      rw [show k - 1 - 4 = k - 5 from by omega]
  · intro st ids lAfter h
    constructor <;> simp [cycleStep, h]

/-- Witness for C4: the 7th consecutive failure waits
`min(60 · 2^2, 3600) = 240`. -/
theorem c4_witness :
    failWait 7
      = some (min (backoffFloor * 2 ^ (7 - maxFailures)) backoffCeiling) :=
  c4_backoff_growth.2.1 7 (by decide)

/-! ## Claim C10: exceptions clear the logged-in flag -/

/-- Guard `if not session.is_logged_in:` that opens every worker cycle:
whether the next cycle begins with a login attempt. -/
def beginsWithLogin (st : WState) : Bool := !st.loggedIn

/-- C10: whenever an exception escapes the login/fetch/emit body, the
worker catches it at the cycle boundary (the step is total and the loop
continues) and clears the session's logged-in flag, so the next cycle
begins with a fresh login attempt — whatever the flag was before and
wherever the exception struck. -/
theorem c10_exception_resets_login (st : WState) (didReset : Bool)
    (processed : List String) :
    (cycleStep st (.raise didReset processed)).1.loggedIn = false
    ∧ beginsWithLogin (cycleStep st (.raise didReset processed)).1 = true := by
  cases didReset <;> simp [cycleStep, beginsWithLogin]
